import Mathlib

/-!
Verification of the TGC-BUS-Core unit-of-measure conversion engine
(`core/metrics/metric.py`) against its specification.

Modelling conventions:
* Python `Decimal` values are modelled by `Metric.Dec`, an exact decimal
  `mant / 10 ^ exp`.  Decimal arithmetic is modelled as exact unbounded
  precision decimal arithmetic; the Python default context's 28-significant
  digit limit is outside the model (every multiplier in the unit table is a
  power of ten, so all divisions occurring in the code are exact).
* Python strings are Lean `String`s; `str.strip` / `str.lower` are modelled
  over their ASCII-plus-superscript fragment, which covers every token the
  unit table and its callers use.
* Python exceptions are modelled by the `Except Metric.PyError` monad:
  `ValueError` (the InvalidUnitError of the spec), `TypeError` (the
  adapter's signature-mismatch error) and a residual constructor for the
  runtime errors Python raises when mis-typed payloads reach the engine.
* The `**kwargs` dict of the legacy adapter is modelled as an association
  list (a real Python call never has duplicate keyword names).
-/

namespace Metric

/-- An exact decimal number `mant / 10 ^ exp`, the model of Python
`decimal.Decimal`. -/
structure Dec where
  mant : Int
  exp : Nat
deriving DecidableEq, Repr

/-- Numeric value of a `Dec` as a rational. -/
def Dec.toRat (v : Dec) : ℚ := (v.mant : ℚ) / (10 : ℚ) ^ v.exp

/-- Python exceptions that the modelled fragment can raise. -/
inductive PyError where
  /-- Python ValueError; the spec's InvalidUnitError is a ValueError. -/
  | valueError (msg : String)
  /-- Python TypeError raised by the adapter's dispatch or Python's
  keyword-binding machinery. -/
  | typeError (msg : String)
  /-- The runtime `AttributeError` / operand `TypeError` Python raises when a
  mis-typed payload reaches string or decimal operations. -/
  | runtimeError (msg : String)
deriving DecidableEq, Repr

/-- A Python value passed to the dynamically-typed legacy adapter: a number
(`int` / `float` / `Decimal`, all exact decimals in the model) or a string. -/
inductive PyVal where
  | num (v : Dec)
  | str (s : String)
deriving DecidableEq, Repr

instance {ε α : Type} [DecidableEq ε] [DecidableEq α] : DecidableEq (Except ε α) := fun
  | .ok a, .ok b =>
      if h : a = b then .isTrue (congrArg Except.ok h)
      else .isFalse (fun hc => h (Except.ok.inj hc))
  | .error a, .error b =>
      if h : a = b then .isTrue (congrArg Except.error h)
      else .isFalse (fun hc => h (Except.error.inj hc))
  | .ok _, .error _ => .isFalse (fun hc => Except.noConfusion hc)
  | .error _, .ok _ => .isFalse (fun hc => Except.noConfusion hc)

/-- Model of Python `str.isspace` characters handled by `str.strip`
(ASCII fragment): space, tab, newline, carriage return, vertical tab,
form feed. -/
def pyIsSpace (c : Char) : Bool :=
  c.toNat == 32 || c.toNat == 9 || c.toNat == 10 || c.toNat == 13 ||
    c.toNat == 11 || c.toNat == 12

/-- Model of Python `str.lower` on one character (ASCII fragment):
code points 65–90 are shifted by 32. -/
def pyLower (c : Char) : Char :=
  if 65 ≤ c.toNat ∧ c.toNat ≤ 90 then Char.ofNat (c.toNat + 32) else c

/-- The two superscript replacements of `_norm_unit`:
`'²' -> '2'`, `'³' -> '3'`. -/
def repSup (c : Char) : Char :=
  if c = '²' then '2' else if c = '³' then '3' else c

/-- Model of Python `str.strip` on the character list of a string. -/
def pyStrip (l : List Char) : List Char :=
  ((l.dropWhile pyIsSpace).reverse.dropWhile pyIsSpace).reverse

/-- Function `_norm_unit` from `metric.py`: strip, lowercase, `²`→`2`, `³`→`3`,
alias `piece`→`ea`. -/
def _norm_unit (u : String) : String :=
  let n := String.mk (((pyStrip u.data).map pyLower).map repSup)
  if n = "piece" then "ea" else n

/-- Function `_norm_dimension` from `metric.py`: strip, lowercase, `mass`→`weight`. -/
def _norm_dimension (d : String) : String :=
  let n := String.mk ((pyStrip d.data).map pyLower)
  if n = "mass" then "weight" else n

/-- The `DIMENSIONS` set of `metric.py`. -/
def DIMENSIONS : List String := ["length", "area", "volume", "weight", "count"]

/-- The `UNIT_MULTIPLIER` table of `metric.py`: dimension → unit → integer
multiplier to the dimension's base unit. -/
def UNIT_MULTIPLIER : List (String × List (String × Nat)) :=
  [ ("length", [("mm", 1), ("cm", 10), ("m", 1000)]),
    ("area", [("mm2", 1), ("cm2", 100), ("m2", 1000000)]),
    ("volume", [("mm3", 1), ("cm3", 1000), ("ml", 1000), ("l", 1000000), ("m3", 1000000000)]),
    ("weight", [("mg", 1), ("g", 1000), ("kg", 1000000)]),
    ("count", [("mc", 1), ("ea", 1000)]) ]

/-- The `BASE_UNIT_LABEL` table of `metric.py`. -/
def BASE_UNIT_LABEL : List (String × String) :=
  [ ("length", "mm"),
    ("area", "mm2"),
    ("volume", "mm3"),
    ("weight", "mg"),
    ("count", "mc") ]

/-- Function `allowed_units_for` from `metric.py`: the keys of the dimension's unit
table (Python returns them as a set; the model returns the key list). -/
def allowed_units_for (dimension : String) : List String :=
  match List.lookup (_norm_dimension dimension) UNIT_MULTIPLIER with
  | none => []
  | some units => units.map Prod.fst

/-- Function `uom_multiplier` from `metric.py`: multiplier of the normalized
(dimension, unit) pair, `0` if the pair is invalid. -/
def uom_multiplier (dimension unit : String) : Nat :=
  let units := (List.lookup (_norm_dimension dimension) UNIT_MULTIPLIER).getD []
  (List.lookup (_norm_unit unit) units).getD 0

/-- Function `default_unit_for` from `metric.py`: `BASE_UNIT_LABEL[dim]`; the
`KeyError` on an unknown dimension is modelled as `none`. -/
def default_unit_for (dimension : String) : Option String :=
  List.lookup (_norm_dimension dimension) BASE_UNIT_LABEL

/-- The exact invalid-pair message of `metric.py`:
`Unsupported uom '{u}' for dimension '{dimension}'`. -/
def invalidMsg (u dimension : String) : String :=
  "Unsupported uom \x27" ++ u ++ "\x27 for dimension \x27" ++ dimension ++ "\x27"

/-- Rounding to an integer with halves away from zero, computed on the exact
fraction `num / den` (`den > 0`): the model of
`Decimal.to_integral_value(rounding=ROUND_HALF_UP)`. -/
def roundHalfUpAZ (num den : Int) : Int :=
  if 0 ≤ num then (2 * num + den) / (2 * den)
  else -((2 * (-num) + den) / (2 * den))

/-- Rounding to an integer with halves to even, computed on the exact
fraction `num / den` (`den > 0`): the model of `Decimal.quantize` with the
default `ROUND_HALF_EVEN` context rounding (applied after scaling so that
the digit being fixed is the integer digit). -/
def roundHalfEvenInt (num den : Int) : Int :=
  let q := num / den
  let r := num % den
  if 2 * r < den then q
  else if den < 2 * r then q + 1
  else if q % 2 = 0 then q else q + 1

/-- Function `to_base_qty` from `metric.py`: `Decimal(str(value)) * mult`, rounded
`ROUND_HALF_UP` to an integer; invalid pair raises `ValueError`. -/
def to_base_qty (value : Dec) (dimension unit : String) : Except PyError Int :=
  let u := _norm_unit unit
  let d := _norm_dimension dimension
  let mult := uom_multiplier d u
  if mult = 0 then .error (.valueError (invalidMsg u dimension))
  else .ok (roundHalfUpAZ (value.mant * (mult : Int)) ((10 : Int) ^ value.exp))

/-- Function `from_base_qty` from `metric.py`: `Decimal(qty_base) / mult` quantized
to `0.01` with the default half-even rounding (the division by a
power-of-ten multiplier is exact); invalid pair raises `ValueError`. -/
def from_base_qty (qty_base : Int) (dimension unit : String) : Except PyError Dec :=
  let u := _norm_unit unit
  let d := _norm_dimension dimension
  let mult := uom_multiplier d u
  if mult = 0 then .error (.valueError (invalidMsg u dimension))
  else .ok ⟨roundHalfEvenInt (qty_base * 100) (mult : Int), 2⟩

/-- Function `to_base` from `metric.py`: `price_per_unit / mult` quantized to `0.01`
with the default half-even rounding; invalid pair raises `ValueError`. -/
def to_base (price_per_unit : Dec) (dimension unit : String) : Except PyError Dec :=
  let u := _norm_unit unit
  let d := _norm_dimension dimension
  let mult := uom_multiplier d u
  if mult = 0 then .error (.valueError (invalidMsg u dimension))
  else .ok ⟨roundHalfEvenInt (price_per_unit.mant * 100) ((10 : Int) ^ price_per_unit.exp * (mult : Int)), 2⟩

/-- Function `_price_from_base` from `metric.py`: `price_per_base * mult` quantized
to `0.01` with the default half-even rounding; invalid pair raises
`ValueError`. -/
def _price_from_base (price_per_base : Dec) (dimension unit : String) : Except PyError Dec :=
  let u := _norm_unit unit
  let d := _norm_dimension dimension
  let mult := uom_multiplier d u
  if mult = 0 then .error (.valueError (invalidMsg u dimension))
  else .ok ⟨roundHalfEvenInt (price_per_base.mant * (mult : Int) * 100) ((10 : Int) ^ price_per_base.exp), 2⟩

/-- Python `int()` applied to an exact decimal: truncation toward zero. -/
def truncDec (v : Dec) : Int :=
  if 0 ≤ v.mant then v.mant / (10 : Int) ^ v.exp
  else -((-v.mant) / (10 : Int) ^ v.exp)

/-- Function `from_base` from `metric.py`, the dual-signature legacy adapter over
`(*args, **kwargs)`.  Payload patterns that Python would only reject at
run time inside the dispatched call (a non-number in the quantity slot, a
non-string unit or dimension) are mapped to `PyError.runtimeError`. -/
def from_base (args : List PyVal) (kwargs : List (String × PyVal)) : Except PyError Dec :=
  if args.length = 3 ∧ kwargs = [] then
    match args with
    | [.num q, .str u, .str d] => from_base_qty (truncDec q) d u
    | _ => .error (.runtimeError "unsupported operand type or attribute")
  else if args = [] ∧ (List.lookup "price_per_base" kwargs).isSome
      ∧ (List.lookup "dimension" kwargs).isSome
      ∧ (List.lookup "unit" kwargs).isSome then
    if kwargs.length = 3 then
      match List.lookup "price_per_base" kwargs, List.lookup "dimension" kwargs,
          List.lookup "unit" kwargs with
      | some (.num p), some (.str d), some (.str u) => _price_from_base p d u
      | _, _, _ => .error (.runtimeError "unsupported operand type or attribute")
    else .error (.typeError "unexpected keyword argument")
  else .error (.typeError "from_base() unsupported call signature")


lemma dropWhile_idem {α : Type} (p : α → Bool) (l : List α) :
    (l.dropWhile p).dropWhile p = l.dropWhile p := by
  cases h : l.dropWhile p with
  | nil => rfl
  | cons x xs =>
    have h2 := List.head?_dropWhile_not p l
    rw [h] at h2
    have h3 : p x = false := h2
    exact List.dropWhile_cons_of_neg (by simp [h3])

lemma head?_false_dropWhile {α : Type} (p : α → Bool) (l : List α) (a : α)
    (h : l.head? = some a) (ha : p a = false) : l.dropWhile p = l := by
  cases l with
  | nil => simp at h
  | cons x xs =>
    simp only [List.head?_cons, Option.some.injEq] at h
    subst h
    exact List.dropWhile_cons_of_neg (by simp [ha])

lemma strip_idem (l : List Char) : pyStrip (pyStrip l) = pyStrip l := by
  unfold pyStrip
  set A := l.dropWhile pyIsSpace with hA
  set B := A.reverse.dropWhile pyIsSpace with hB
  have hDB : B.dropWhile pyIsSpace = B := by rw [hB]; exact dropWhile_idem _ _
  cases hBc : B with
  | nil => simp [hBc]
  | cons b bs =>
    have hsuf : B <:+ A.reverse := by rw [hB]; exact List.dropWhile_suffix _
    obtain ⟨t, ht⟩ := hsuf
    cases hAc : A with
    | nil =>
      rw [hAc] at ht
      simp only [List.reverse_nil] at ht
      rw [hBc] at ht
      simp at ht
    | cons a as =>
      have hwsa : pyIsSpace a = false := by
        have h2 := List.head?_dropWhile_not pyIsSpace l
        rw [← hA, hAc] at h2
        exact h2
      have hgl : (A.reverse).getLast? = some a := by
        rw [List.getLast?_reverse, hAc]; rfl
      have hglB : B.getLast? = some a := by
        rw [← ht] at hgl
        rwa [List.getLast?_append_of_ne_nil t (by rw [hBc]; simp)] at hgl
      have hhRB : B.reverse.head? = some a := by
        rw [List.head?_reverse]; exact hglB
      have h1 : B.reverse.dropWhile pyIsSpace = B.reverse :=
        head?_false_dropWhile _ _ a hhRB hwsa
      rw [← hBc, h1, List.reverse_reverse, hDB]

lemma strip_map (f : Char → Char) (hf : ∀ c, pyIsSpace (f c) = pyIsSpace c) (l : List Char) :
    pyStrip (l.map f) = (pyStrip l).map f := by
  have hdw : ∀ (m : List Char), (m.map f).dropWhile pyIsSpace = (m.dropWhile pyIsSpace).map f := by
    intro m
    rw [List.dropWhile_map]
    have hcomp : pyIsSpace ∘ f = pyIsSpace := funext hf
    rw [hcomp]
  unfold pyStrip
  rw [hdw, ← List.map_reverse, hdw, ← List.map_reverse]



lemma pyLower_ws (c : Char) : pyIsSpace (pyLower c) = pyIsSpace c := by
  unfold pyLower pyIsSpace
  by_cases h : 65 ≤ c.toNat ∧ c.toNat ≤ 90
  · rw [if_pos h]
    obtain ⟨h1, h2⟩ := h
    generalize hm : c.toNat = m at h1 h2 ⊢
    interval_cases m <;> rfl
  · rw [if_neg h]

lemma pyLower_idem (c : Char) : pyLower (pyLower c) = pyLower c := by
  by_cases h : 65 ≤ c.toNat ∧ c.toNat ≤ 90
  · unfold pyLower
    rw [if_pos h]
    obtain ⟨h1, h2⟩ := h
    generalize hm : c.toNat = m at h1 h2 ⊢
    interval_cases m <;> rfl
  · unfold pyLower
    rw [if_neg h, if_neg h]

lemma repSup_ws (c : Char) : pyIsSpace (repSup c) = pyIsSpace c := by
  unfold repSup
  by_cases h2 : c = '²'
  · subst h2; rfl
  · rw [if_neg h2]
    by_cases h3 : c = '³'
    · subst h3; rfl
    · rw [if_neg h3]

lemma normChar_ws (c : Char) : pyIsSpace (repSup (pyLower c)) = pyIsSpace c := by
  rw [repSup_ws, pyLower_ws]

lemma normChar_idem (c : Char) :
    repSup (pyLower (repSup (pyLower c))) = repSup (pyLower c) := by
  by_cases h2 : c = '²'
  · subst h2; rfl
  by_cases h3 : c = '³'
  · subst h3; rfl
  by_cases h : 65 ≤ c.toNat ∧ c.toNat ≤ 90
  · have hl : pyLower c = Char.ofNat (c.toNat + 32) := by unfold pyLower; rw [if_pos h]
    rw [hl]
    obtain ⟨h1, h2'⟩ := h
    generalize hm : c.toNat = m at h1 h2' ⊢
    interval_cases m <;> rfl
  · have hl : pyLower c = c := by unfold pyLower; rw [if_neg h]
    have hr : repSup c = c := by unfold repSup; rw [if_neg h2, if_neg h3]
    rw [hl, hr, hl, hr]



lemma norm_unit_core_idem (l : List Char) :
    ((pyStrip (((pyStrip l).map pyLower).map repSup)).map pyLower).map repSup
      = ((pyStrip l).map pyLower).map repSup := by
  simp only [List.map_map]
  rw [strip_map (repSup ∘ pyLower) (fun c => normChar_ws c), strip_idem, List.map_map]
  have : (repSup ∘ pyLower) ∘ repSup ∘ pyLower = repSup ∘ pyLower :=
    funext fun c => normChar_idem c
  rw [this]

lemma _norm_unit_idem (u : String) : _norm_unit (_norm_unit u) = _norm_unit u := by
  unfold _norm_unit
  by_cases hp : String.mk (((pyStrip u.data).map pyLower).map repSup) = "piece"
  · simp only [hp, if_pos rfl]
    decide
  · simp only [if_neg hp]
    have hdata : (String.mk (((pyStrip u.data).map pyLower).map repSup)).data
        = ((pyStrip u.data).map pyLower).map repSup := rfl
    simp only [hdata, norm_unit_core_idem, if_neg hp]

lemma norm_dim_core_idem (l : List Char) :
    (pyStrip ((pyStrip l).map pyLower)).map pyLower = (pyStrip l).map pyLower := by
  rw [strip_map pyLower (fun c => pyLower_ws c), strip_idem, List.map_map]
  have : pyLower ∘ pyLower = pyLower := funext fun c => pyLower_idem c
  rw [this]

lemma _norm_dimension_idem (d : String) :
    _norm_dimension (_norm_dimension d) = _norm_dimension d := by
  unfold _norm_dimension
  by_cases hm : String.mk ((pyStrip d.data).map pyLower) = "mass"
  · simp only [hm, if_pos rfl]
    decide
  · simp only [if_neg hm]
    have hdata : (String.mk ((pyStrip d.data).map pyLower)).data
        = (pyStrip d.data).map pyLower := rfl
    simp only [hdata, norm_dim_core_idem, if_neg hm]

lemma uom_multiplier_norm (d u : String) :
    uom_multiplier (_norm_dimension d) (_norm_unit u) = uom_multiplier d u := by
  unfold uom_multiplier
  rw [_norm_dimension_idem, _norm_unit_idem]



/-- Mathematical specification of rounding to the nearest integer with
halves away from zero. -/
def roundHalfMagSpec (q : ℚ) : ℤ :=
  if 0 ≤ q then ⌊q + 1 / 2⌋ else -⌊-q + 1 / 2⌋

/-- Mathematical specification of rounding to the nearest integer with
halves to the even neighbour. -/
def roundHalfEvenSpec (q : ℚ) : ℤ :=
  if Int.fract q < 1 / 2 then ⌊q⌋
  else if 1 / 2 < Int.fract q then ⌊q⌋ + 1
  else if Even ⌊q⌋ then ⌊q⌋ else ⌊q⌋ + 1

lemma floor_div_int (a b : ℤ) (hb : 0 < b) : ⌊(a : ℚ) / (b : ℚ)⌋ = a / b := by
  obtain ⟨d, rfl⟩ : ∃ d : ℕ, b = (d : ℤ) := ⟨b.toNat, (Int.toNat_of_nonneg hb.le).symm⟩
  have := Rat.floor_intCast_div_natCast a d
  rw [← this]
  norm_cast

lemma roundHalfUpAZ_eq (n d : ℤ) (hd : 0 < d) :
    roundHalfUpAZ n d = roundHalfMagSpec ((n : ℚ) / (d : ℚ)) := by
  unfold roundHalfUpAZ roundHalfMagSpec
  have hdq : (0 : ℚ) < (d : ℚ) := by exact_mod_cast hd
  have key : ∀ m : ℤ, 0 ≤ m → (2 * m + d) / (2 * d) = ⌊(m : ℚ) / (d : ℚ) + 1 / 2⌋ := by
    intro m _
    rw [show ((m : ℚ) / (d : ℚ) + 1 / 2) = ((2 * m + d : ℤ) : ℚ) / ((2 * d : ℤ) : ℚ) by
      push_cast
      field_simp
      ring]
    rw [floor_div_int _ _ (by omega)]
  by_cases hn : 0 ≤ n
  · rw [if_pos hn, if_pos (div_nonneg (by exact_mod_cast hn) hdq.le), key n hn]
  · rw [if_neg hn, if_neg (by
      push_neg
      exact div_neg_of_neg_of_pos (by exact_mod_cast Int.not_le.mp hn) hdq)]
    rw [key (-n) (by omega)]
    congr 2
    push_cast
    ring

lemma roundHalfEvenInt_eq (n d : ℤ) (hd : 0 < d) :
    roundHalfEvenInt n d = roundHalfEvenSpec ((n : ℚ) / (d : ℚ)) := by
  have hdq : (0 : ℚ) < (d : ℚ) := by exact_mod_cast hd
  have hq : ⌊(n : ℚ) / (d : ℚ)⌋ = n / d := floor_div_int n d hd
  have hfr : Int.fract ((n : ℚ) / (d : ℚ)) = ((n % d : ℤ) : ℚ) / (d : ℚ) := by
    rw [Int.fract, hq, Int.emod_def]
    push_cast
    field_simp
  have e1 : Int.fract ((n : ℚ) / (d : ℚ)) < 1 / 2 ↔ 2 * (n % d) < d := by
    rw [hfr, div_lt_div_iff₀ hdq (by norm_num : (0 : ℚ) < 2)]
    rw [show ((n % d : ℤ) : ℚ) * 2 = (((n % d) * 2 : ℤ) : ℚ) by push_cast; ring,
      show (1 : ℚ) * (d : ℚ) = ((d : ℤ) : ℚ) by ring]
    rw [Int.cast_lt]
    omega
  have e2 : 1 / 2 < Int.fract ((n : ℚ) / (d : ℚ)) ↔ d < 2 * (n % d) := by
    rw [hfr, div_lt_div_iff₀ (by norm_num : (0 : ℚ) < 2) hdq]
    rw [show ((n % d : ℤ) : ℚ) * 2 = (((n % d) * 2 : ℤ) : ℚ) by push_cast; ring,
      show (1 : ℚ) * (d : ℚ) = ((d : ℤ) : ℚ) by ring]
    rw [Int.cast_lt]
    omega
  have e3 : Even ⌊(n : ℚ) / (d : ℚ)⌋ ↔ n / d % 2 = 0 := by rw [hq, Int.even_iff]
  unfold roundHalfEvenInt roundHalfEvenSpec
  by_cases h1 : 2 * (n % d) < d
  · rw [if_pos h1, if_pos (e1.mpr h1), hq]
  · rw [if_neg h1, if_neg (fun hc => h1 (e1.mp hc))]
    by_cases h2 : d < 2 * (n % d)
    · rw [if_pos h2, if_pos (e2.mpr h2), hq]
    · rw [if_neg h2, if_neg (fun hc => h2 (e2.mp hc))]
      by_cases h3 : n / d % 2 = 0
      · rw [if_pos h3, if_pos (e3.mpr h3), hq]
      · rw [if_neg h3, if_neg (fun hc => h3 (e3.mp hc)), hq]

lemma abs_roundHalfMagSpec_sub (q : ℚ) : |((roundHalfMagSpec q : ℤ) : ℚ) - q| ≤ 1 / 2 := by
  unfold roundHalfMagSpec
  by_cases h : 0 ≤ q
  · rw [if_pos h]
    have h1 : ((⌊q + 1 / 2⌋ : ℤ) : ℚ) ≤ q + 1 / 2 := Int.floor_le _
    have h2 : q + 1 / 2 - 1 < ((⌊q + 1 / 2⌋ : ℤ) : ℚ) := Int.sub_one_lt_floor _
    rw [abs_le]
    constructor <;> linarith
  · rw [if_neg h]
    have h1 : ((⌊-q + 1 / 2⌋ : ℤ) : ℚ) ≤ -q + 1 / 2 := Int.floor_le _
    have h2 : -q + 1 / 2 - 1 < ((⌊-q + 1 / 2⌋ : ℤ) : ℚ) := Int.sub_one_lt_floor _
    rw [abs_le]
    push_cast
    constructor <;> linarith

lemma abs_roundHalfEvenSpec_sub (q : ℚ) : |((roundHalfEvenSpec q : ℤ) : ℚ) - q| ≤ 1 / 2 := by
  unfold roundHalfEvenSpec
  have hf0 : 0 ≤ Int.fract q := Int.fract_nonneg q
  have hf1 : Int.fract q < 1 := Int.fract_lt_one q
  have hfq : ((⌊q⌋ : ℤ) : ℚ) = q - Int.fract q := by rw [Int.fract]; ring
  by_cases h1 : Int.fract q < 1 / 2
  · rw [if_pos h1, abs_le]
    constructor <;> [skip; skip] <;> rw [hfq] <;> linarith
  · rw [if_neg h1]
    by_cases h2 : 1 / 2 < Int.fract q
    · rw [if_pos h2, abs_le]
      push_cast
      constructor <;> rw [hfq] <;> linarith
    · rw [if_neg h2]
      have heq : Int.fract q = 1 / 2 := le_antisymm (not_lt.mp h2) (not_lt.mp h1)
      by_cases h3 : Even ⌊q⌋
      · rw [if_pos h3, abs_le]
        constructor <;> rw [hfq, heq] <;> linarith
      · rw [if_neg h3, abs_le]
        push_cast
        constructor <;> rw [hfq, heq] <;> linarith



lemma to_base_qty_ok (v : Dec) (d u : String) (h : uom_multiplier d u ≠ 0) :
    to_base_qty v d u = .ok (roundHalfMagSpec (v.toRat * (uom_multiplier d u : ℚ))) := by
  simp only [to_base_qty, uom_multiplier_norm]
  rw [if_neg h]
  congr 1
  rw [roundHalfUpAZ_eq _ _ (by positivity)]
  congr 1
  unfold Dec.toRat
  push_cast
  ring

lemma to_base_qty_err (v : Dec) (d u : String) (h : uom_multiplier d u = 0) :
    to_base_qty v d u = .error (.valueError (invalidMsg (_norm_unit u) d)) := by
  simp only [to_base_qty, uom_multiplier_norm]
  rw [if_pos h]

lemma from_base_qty_ok (qb : Int) (d u : String) (h : uom_multiplier d u ≠ 0) :
    from_base_qty qb d u
      = .ok ⟨roundHalfEvenSpec ((qb : ℚ) / (uom_multiplier d u : ℚ) * 100), 2⟩ := by
  simp only [from_base_qty, uom_multiplier_norm]
  rw [if_neg h]
  congr 2
  rw [roundHalfEvenInt_eq _ _ (by positivity)]
  congr 1
  push_cast
  field_simp

lemma from_base_qty_err (qb : Int) (d u : String) (h : uom_multiplier d u = 0) :
    from_base_qty qb d u = .error (.valueError (invalidMsg (_norm_unit u) d)) := by
  simp only [from_base_qty, uom_multiplier_norm]
  rw [if_pos h]

lemma to_base_ok (p : Dec) (d u : String) (h : uom_multiplier d u ≠ 0) :
    to_base p d u
      = .ok ⟨roundHalfEvenSpec (p.toRat / (uom_multiplier d u : ℚ) * 100), 2⟩ := by
  simp only [to_base, uom_multiplier_norm]
  rw [if_neg h]
  congr 2
  rw [roundHalfEvenInt_eq _ _ (by positivity)]
  congr 1
  unfold Dec.toRat
  push_cast
  field_simp

lemma to_base_err (p : Dec) (d u : String) (h : uom_multiplier d u = 0) :
    to_base p d u = .error (.valueError (invalidMsg (_norm_unit u) d)) := by
  simp only [to_base, uom_multiplier_norm]
  rw [if_pos h]

lemma _price_from_base_ok (p : Dec) (d u : String) (h : uom_multiplier d u ≠ 0) :
    _price_from_base p d u
      = .ok ⟨roundHalfEvenSpec (p.toRat * (uom_multiplier d u : ℚ) * 100), 2⟩ := by
  simp only [_price_from_base, uom_multiplier_norm]
  rw [if_neg h]
  congr 2
  rw [roundHalfEvenInt_eq _ _ (by positivity)]
  congr 1
  unfold Dec.toRat
  push_cast
  ring

lemma _price_from_base_err (p : Dec) (d u : String) (h : uom_multiplier d u = 0) :
    _price_from_base p d u = .error (.valueError (invalidMsg (_norm_unit u) d)) := by
  simp only [_price_from_base, uom_multiplier_norm]
  rw [if_pos h]



/-- C1: for every valid (dimension, unit) pair with multiplier m,
`to_base_qty` returns the exact decimal value times m rounded to the nearest
integer with halves away from zero; in particular `to_base_qty 1.5 length cm
= 15` and `to_base_qty (-1.5) length cm = -15`. -/
theorem c1_to_base_qty_half_up_away :
    (∀ (d u : String) (v : Dec), uom_multiplier d u ≠ 0 →
      to_base_qty v d u = .ok (roundHalfMagSpec (v.toRat * (uom_multiplier d u : ℚ))))
    ∧ to_base_qty ⟨15, 1⟩ "length" "cm" = .ok 15
    ∧ to_base_qty ⟨-15, 1⟩ "length" "cm" = .ok (-15) :=
  ⟨fun d u v h => to_base_qty_ok v d u h, by decide, by decide⟩

theorem c1_witness :
    uom_multiplier "length" "cm" ≠ 0 ∧
    to_base_qty ⟨15, 1⟩ "length" "cm"
      = .ok (roundHalfMagSpec (Dec.toRat ⟨15, 1⟩ * (uom_multiplier "length" "cm" : ℚ))) :=
  ⟨by decide, c1_to_base_qty_half_up_away.1 "length" "cm" ⟨15, 1⟩ (by decide)⟩

/-- C2: for every valid (dimension, unit) pair with multiplier m,
`from_base_qty` returns `qty_base / m` rounded to exactly 2 fraction digits
with half-even (banker's) rounding, and `to_base` returns
`price_per_unit / m` rounded the same way; in particular
`from_base_qty 123 length cm = 12.30`. -/
theorem c2_reverse_half_even :
    (∀ (d u : String) (qb : Int), uom_multiplier d u ≠ 0 →
      from_base_qty qb d u
        = .ok ⟨roundHalfEvenSpec ((qb : ℚ) / (uom_multiplier d u : ℚ) * 100), 2⟩)
    ∧ (∀ (d u : String) (p : Dec), uom_multiplier d u ≠ 0 →
      to_base p d u
        = .ok ⟨roundHalfEvenSpec (p.toRat / (uom_multiplier d u : ℚ) * 100), 2⟩)
    ∧ from_base_qty 123 "length" "cm" = .ok ⟨1230, 2⟩ :=
  ⟨fun d u qb h => from_base_qty_ok qb d u h,
   fun d u p h => to_base_ok p d u h, by decide⟩

theorem c2_witness :
    uom_multiplier "length" "cm" ≠ 0 ∧
    from_base_qty 123 "length" "cm"
      = .ok ⟨roundHalfEvenSpec ((123 : ℚ) / (uom_multiplier "length" "cm" : ℚ) * 100), 2⟩ :=
  ⟨by decide, c2_reverse_half_even.1 "length" "cm" 123 (by decide)⟩

/-- C3: whenever `uom_multiplier` is 0 for the pair, all four conversion
operations fail with exactly
`Unsupported uom '{normalized unit}' for dimension '{original dimension}'`,
and whenever it is nonzero they all succeed (no other failure mode). -/
theorem c3_invalid_unit_error :
    (∀ (d u : String), uom_multiplier d u = 0 →
      (∀ v : Dec, to_base_qty v d u = .error (.valueError (invalidMsg (_norm_unit u) d)))
      ∧ (∀ qb : Int, from_base_qty qb d u = .error (.valueError (invalidMsg (_norm_unit u) d)))
      ∧ (∀ p : Dec, to_base p d u = .error (.valueError (invalidMsg (_norm_unit u) d)))
      ∧ (∀ p : Dec, _price_from_base p d u = .error (.valueError (invalidMsg (_norm_unit u) d))))
    ∧ (∀ (d u : String), uom_multiplier d u ≠ 0 →
      (∀ v : Dec, ∃ r, to_base_qty v d u = .ok r)
      ∧ (∀ qb : Int, ∃ r, from_base_qty qb d u = .ok r)
      ∧ (∀ p : Dec, ∃ r, to_base p d u = .ok r)
      ∧ (∀ p : Dec, ∃ r, _price_from_base p d u = .ok r))
    ∧ to_base_qty ⟨1, 0⟩ "volume" "g"
        = .error (.valueError "Unsupported uom \x27g\x27 for dimension \x27volume\x27")
    ∧ from_base_qty 1 "weight" "ml"
        = .error (.valueError "Unsupported uom \x27ml\x27 for dimension \x27weight\x27") :=
  ⟨fun d u h =>
    ⟨fun v => to_base_qty_err v d u h, fun qb => from_base_qty_err qb d u h,
     fun p => to_base_err p d u h, fun p => _price_from_base_err p d u h⟩,
   fun d u h =>
    ⟨fun v => ⟨_, to_base_qty_ok v d u h⟩, fun qb => ⟨_, from_base_qty_ok qb d u h⟩,
     fun p => ⟨_, to_base_ok p d u h⟩, fun p => ⟨_, _price_from_base_ok p d u h⟩⟩,
   by decide, by decide⟩

theorem c3_witness :
    uom_multiplier "volume" "g" = 0 ∧
    to_base_qty ⟨1, 0⟩ "volume" "g"
      = .error (.valueError (invalidMsg (_norm_unit "g") "volume")) ∧
    uom_multiplier "length" "cm" ≠ 0 ∧
    (∃ r, to_base_qty ⟨1, 0⟩ "length" "cm" = .ok r) :=
  ⟨by decide, ((c3_invalid_unit_error.1 "volume" "g" (by decide)).1 ⟨1, 0⟩),
   by decide, ((c3_invalid_unit_error.2.1 "length" "cm" (by decide)).1 ⟨1, 0⟩)⟩

/-- C10: `cm3` and `ml` both carry multiplier 1000 in the volume dimension,
so every conversion operation returns identical results for the two unit
tokens. -/
theorem c10_cm3_ml_identical :
    uom_multiplier "volume" "cm3" = 1000 ∧ uom_multiplier "volume" "ml" = 1000
    ∧ (∀ v : Dec, to_base_qty v "volume" "cm3" = to_base_qty v "volume" "ml")
    ∧ (∀ qb : Int, from_base_qty qb "volume" "cm3" = from_base_qty qb "volume" "ml")
    ∧ (∀ p : Dec, to_base p "volume" "cm3" = to_base p "volume" "ml")
    ∧ (∀ p : Dec, _price_from_base p "volume" "cm3" = _price_from_base p "volume" "ml") := by
  refine ⟨by decide, by decide, fun v => ?_, fun qb => ?_, fun p => ?_, fun p => ?_⟩ <;>
    simp only [to_base_qty, from_base_qty, to_base, _price_from_base,
      show uom_multiplier (_norm_dimension "volume") (_norm_unit "cm3") = 1000 from by decide,
      show uom_multiplier (_norm_dimension "volume") (_norm_unit "ml") = 1000 from by decide] <;>
    norm_num



lemma lookup_mem {α β : Type} [BEq α] [LawfulBEq α] (l : List (α × β)) (a : α) (b : β)
    (h : List.lookup a l = some b) : (a, b) ∈ l := by
  induction l with
  | nil => simp [List.lookup] at h
  | cons p l ih =>
    rw [List.lookup] at h
    split at h
    · rename_i hbeq
      obtain rfl : a = p.1 := eq_of_beq hbeq
      obtain rfl : b = p.2 := by injection h with h; exact h.symm
      exact List.mem_cons_self _ _
    · exact List.mem_cons_of_mem _ (ih h)

lemma table_pos (s : String) (units : List (String × Nat))
    (h1 : List.lookup s UNIT_MULTIPLIER = some units)
    (t : String) (m : Nat) (h2 : List.lookup t units = some m) : 0 < m := by
  have hm1 := lookup_mem _ _ _ h1
  have hm2 := lookup_mem _ _ _ h2
  have hall : ∀ p ∈ UNIT_MULTIPLIER, ∀ q ∈ p.2, 0 < q.2 := by decide
  exact hall _ hm1 _ hm2

/-- C7: `uom_multiplier` returns exactly the table entry (a strictly
positive integer) for every pair present in the table after normalization,
and exactly 0 for every pair not present. -/
theorem c7_multiplier_pos_or_zero :
    ∀ (d u : String),
      (∀ units m, List.lookup (_norm_dimension d) UNIT_MULTIPLIER = some units →
        List.lookup (_norm_unit u) units = some m →
        uom_multiplier d u = m ∧ 0 < m)
      ∧ (List.lookup (_norm_dimension d) UNIT_MULTIPLIER = none → uom_multiplier d u = 0)
      ∧ (∀ units, List.lookup (_norm_dimension d) UNIT_MULTIPLIER = some units →
        List.lookup (_norm_unit u) units = none → uom_multiplier d u = 0) := by
  intro d u
  refine ⟨fun units m h1 h2 => ⟨?_, table_pos _ _ h1 _ _ h2⟩,
    fun h1 => ?_, fun units h1 h2 => ?_⟩
  · simp only [uom_multiplier]
    rw [h1]
    simp only [Option.getD_some]
    rw [h2]
    rfl
  · simp only [uom_multiplier]
    rw [h1]
    rfl
  · simp only [uom_multiplier]
    rw [h1]
    simp only [Option.getD_some]
    rw [h2]
    rfl

theorem c7_witness :
    List.lookup (_norm_dimension "length") UNIT_MULTIPLIER
        = some [("mm", 1), ("cm", 10), ("m", 1000)] ∧
    List.lookup (_norm_unit "cm") [("mm", 1), ("cm", 10), ("m", 1000)] = some 10 ∧
    uom_multiplier "length" "cm" = 10 ∧ 0 < uom_multiplier "length" "cm" := by
  have h := (c7_multiplier_pos_or_zero "length" "cm").1
    [("mm", 1), ("cm", 10), ("m", 1000)] 10 (by decide) (by decide)
  exact ⟨by decide, by decide, h.1, lt_of_lt_of_eq h.2 h.1.symm⟩

lemma base_label_mult_one (d b : String) (h : default_unit_for d = some b) :
    uom_multiplier d b = 1 := by
  have hm := lookup_mem _ _ _ h
  simp only [BASE_UNIT_LABEL, List.mem_cons, List.not_mem_nil, or_false,
    Prod.mk.injEq] at hm
  rcases hm with ⟨hd, hb⟩ | ⟨hd, hb⟩ | ⟨hd, hb⟩ | ⟨hd, hb⟩ | ⟨hd, hb⟩ <;>
    subst hb <;> simp only [uom_multiplier, hd] <;> decide

lemma lookup_tables_none (s : String) :
    (List.lookup s BASE_UNIT_LABEL).isNone
      ↔ (List.lookup s UNIT_MULTIPLIER).isNone := by
  by_cases h1 : s = "length"
  · subst h1; decide
  by_cases h2 : s = "area"
  · subst h2; decide
  by_cases h3 : s = "volume"
  · subst h3; decide
  by_cases h4 : s = "weight"
  · subst h4; decide
  by_cases h5 : s = "count"
  · subst h5; decide
  simp [BASE_UNIT_LABEL, UNIT_MULTIPLIER, List.lookup, beq_false_of_ne h1,
    beq_false_of_ne h2, beq_false_of_ne h3, beq_false_of_ne h4, beq_false_of_ne h5]

/-- C8: `default_unit_for` returns, for every recognized dimension
(including the `mass` synonym), the unit token whose multiplier is exactly
1, and is undefined (models `KeyError`) exactly on the dimensions unknown
to the unit table. -/
theorem c8_default_unit_is_base :
    (∀ (d b : String), default_unit_for d = some b → uom_multiplier d b = 1)
    ∧ (∀ d : String, (default_unit_for d).isNone
        ↔ (List.lookup (_norm_dimension d) UNIT_MULTIPLIER).isNone)
    ∧ default_unit_for "length" = some "mm"
    ∧ default_unit_for "area" = some "mm2"
    ∧ default_unit_for "volume" = some "mm3"
    ∧ default_unit_for "weight" = some "mg"
    ∧ default_unit_for "count" = some "mc"
    ∧ default_unit_for "mass" = some "mg"
    ∧ default_unit_for "inductance" = none :=
  ⟨base_label_mult_one, fun d => lookup_tables_none (_norm_dimension d),
   by decide, by decide, by decide, by decide, by decide, by decide, by decide⟩

theorem c8_witness :
    default_unit_for "length" = some "mm" ∧ uom_multiplier "length" "mm" = 1 :=
  ⟨by decide, c8_default_unit_is_base.1 "length" "mm" (by decide)⟩



/-- C6: the legacy adapter dispatches the 3-positional shape to
`from_base_qty` with the quantity coerced to an integer, the keyword shape
`price_per_base`/`dimension`/`unit` to `_price_from_base`, and rejects
every other argument shape with a `TypeError` distinct from the
invalid-unit `ValueError`. -/
theorem c6_from_base_dispatch :
    (∀ (q : Dec) (u d : String),
      from_base [.num q, .str u, .str d] [] = from_base_qty (truncDec q) d u)
    ∧ (∀ (p : Dec) (d u : String),
      from_base [] [("price_per_base", .num p), ("dimension", .str d), ("unit", .str u)]
        = _price_from_base p d u)
    ∧ (∀ (args : List PyVal) (kwargs : List (String × PyVal)),
      ¬(args.length = 3 ∧ kwargs = []) →
      ¬(args = [] ∧ (List.lookup "price_per_base" kwargs).isSome
        ∧ (List.lookup "dimension" kwargs).isSome
        ∧ (List.lookup "unit" kwargs).isSome) →
      from_base args kwargs = .error (.typeError "from_base() unsupported call signature"))
    ∧ (∀ msgV msgT : String, PyError.valueError msgV ≠ PyError.typeError msgT) := by
  refine ⟨fun q u d => by simp [from_base], fun p d u => by simp [from_base, List.lookup],
    fun args kwargs h1 h2 => ?_, fun msgV msgT => fun hc => PyError.noConfusion hc⟩
  simp only [from_base]
  rw [if_neg h1, if_neg h2]

theorem c6_witness :
    ¬(([PyVal.num ⟨1, 0⟩] : List PyVal).length = 3 ∧ ([] : List (String × PyVal)) = [])
    ∧ from_base [PyVal.num ⟨1, 0⟩] []
        = .error (.typeError "from_base() unsupported call signature") :=
  ⟨by decide, c6_from_base_dispatch.2.2.1 [PyVal.num ⟨1, 0⟩] [] (by decide) (by decide)⟩

lemma truncDec_eq_floor_ceil (q : Dec) :
    truncDec q = if 0 ≤ q.toRat then ⌊q.toRat⌋ else ⌈q.toRat⌉ := by
  unfold truncDec Dec.toRat
  have hpow : (0 : ℚ) < (10 : ℚ) ^ q.exp := by positivity
  by_cases h : 0 ≤ q.mant
  · rw [if_pos h, if_pos (div_nonneg (by exact_mod_cast h) hpow.le)]
    rw [← floor_div_int q.mant ((10 : ℤ) ^ q.exp) (by positivity)]
    congr 1
    push_cast
    ring
  · rw [if_neg h, if_neg (by
      push_neg
      exact div_neg_of_neg_of_pos (by exact_mod_cast Int.not_le.mp h) hpow)]
    have hc : ⌈(q.mant : ℚ) / (10 : ℚ) ^ q.exp⌉
        = -⌊-((q.mant : ℚ) / (10 : ℚ) ^ q.exp)⌋ := by
      rw [Int.floor_neg, neg_neg]
    rw [hc]
    congr 1
    rw [← floor_div_int (-q.mant) ((10 : ℤ) ^ q.exp) (by positivity)]
    congr 1
    push_cast
    ring

/-- C9: in the positional form, a non-integer quantity is coerced with
`int()`, which truncates toward zero; 123.9 becomes 123 and -123.9 becomes
-123 before the division. -/
theorem c9_positional_int_truncates :
    (∀ (q : Dec) (u d : String),
      from_base [.num q, .str u, .str d] [] = from_base_qty (truncDec q) d u)
    ∧ (∀ q : Dec, truncDec q = if 0 ≤ q.toRat then ⌊q.toRat⌋ else ⌈q.toRat⌉)
    ∧ truncDec ⟨1239, 1⟩ = 123 ∧ truncDec ⟨-1239, 1⟩ = -123
    ∧ from_base [.num ⟨1239, 1⟩, .str "cm", .str "length"] []
        = from_base_qty 123 "length" "cm"
    ∧ from_base [.num ⟨-1239, 1⟩, .str "cm", .str "length"] []
        = from_base_qty (-123) "length" "cm" :=
  ⟨fun q u d => by simp [from_base], truncDec_eq_floor_ceil, by decide, by decide,
   by decide, by decide⟩



lemma _norm_dimension_weight : _norm_dimension "weight" = "weight" := by decide

lemma uom_multiplier_weight_norm (u : String) :
    uom_multiplier "weight" (_norm_unit u) = uom_multiplier "weight" u := by
  have h := uom_multiplier_norm "weight" u
  rwa [_norm_dimension_weight] at h

lemma dim_synonym_ops (s : String) (hs : _norm_dimension s = "weight") :
    (∀ u, uom_multiplier s u = uom_multiplier "weight" u)
    ∧ allowed_units_for s = allowed_units_for "weight"
    ∧ default_unit_for s = default_unit_for "weight"
    ∧ (∀ u v, to_base_qty v s u =
        if uom_multiplier "weight" u = 0
        then .error (.valueError (invalidMsg (_norm_unit u) s))
        else to_base_qty v "weight" u)
    ∧ (∀ u qb, from_base_qty qb s u =
        if uom_multiplier "weight" u = 0
        then .error (.valueError (invalidMsg (_norm_unit u) s))
        else from_base_qty qb "weight" u)
    ∧ (∀ u p, to_base p s u =
        if uom_multiplier "weight" u = 0
        then .error (.valueError (invalidMsg (_norm_unit u) s))
        else to_base p "weight" u)
    ∧ (∀ u p, _price_from_base p s u =
        if uom_multiplier "weight" u = 0
        then .error (.valueError (invalidMsg (_norm_unit u) s))
        else _price_from_base p "weight" u) := by
  refine ⟨fun u => ?_, ?_, ?_, fun u v => ?_, fun u qb => ?_, fun u p => ?_, fun u p => ?_⟩
  · unfold uom_multiplier
    rw [hs, _norm_dimension_weight]
  · unfold allowed_units_for
    rw [hs, _norm_dimension_weight]
  · unfold default_unit_for
    rw [hs, _norm_dimension_weight]
  all_goals
    simp only [to_base_qty, from_base_qty, to_base, _price_from_base, hs,
      _norm_dimension_weight, uom_multiplier_weight_norm]
  all_goals by_cases hC : uom_multiplier "weight" u = 0 <;> simp [hC]

/-- C5 counterexample: with an invalid unit the error messages echo the
caller's original dimension string, so the `mass` call and the `weight`
call do not produce identical raised errors. -/
theorem c5_counterexample :
    to_base_qty ⟨1, 0⟩ "mass" "ml" ≠ to_base_qty ⟨1, 0⟩ "weight" "ml" := by decide

/-- C5 (amended): dimensions `mass` and `Mass ` behave identically to
`weight` in every operation up to the dimension string echoed in the
invalid-unit error message: multiplier, allowed units and default unit are
identical, every conversion succeeds identically on valid units, and on
invalid units both sides raise an invalid-unit `ValueError` whose message
differs only in the echoed dimension. -/
theorem c5_amended_mass_is_weight :
    (∀ u, uom_multiplier "mass" u = uom_multiplier "weight" u)
    ∧ (∀ u, uom_multiplier "Mass " u = uom_multiplier "weight" u)
    ∧ allowed_units_for "mass" = allowed_units_for "weight"
    ∧ allowed_units_for "Mass " = allowed_units_for "weight"
    ∧ default_unit_for "mass" = default_unit_for "weight"
    ∧ default_unit_for "Mass " = default_unit_for "weight"
    ∧ (∀ u v, to_base_qty v "mass" u =
        if uom_multiplier "weight" u = 0
        then .error (.valueError (invalidMsg (_norm_unit u) "mass"))
        else to_base_qty v "weight" u)
    ∧ (∀ u v, to_base_qty v "Mass " u =
        if uom_multiplier "weight" u = 0
        then .error (.valueError (invalidMsg (_norm_unit u) "Mass "))
        else to_base_qty v "weight" u)
    ∧ (∀ u qb, from_base_qty qb "mass" u =
        if uom_multiplier "weight" u = 0
        then .error (.valueError (invalidMsg (_norm_unit u) "mass"))
        else from_base_qty qb "weight" u)
    ∧ (∀ u qb, from_base_qty qb "Mass " u =
        if uom_multiplier "weight" u = 0
        then .error (.valueError (invalidMsg (_norm_unit u) "Mass "))
        else from_base_qty qb "weight" u)
    ∧ (∀ u p, to_base p "mass" u =
        if uom_multiplier "weight" u = 0
        then .error (.valueError (invalidMsg (_norm_unit u) "mass"))
        else to_base p "weight" u)
    ∧ (∀ u p, to_base p "Mass " u =
        if uom_multiplier "weight" u = 0
        then .error (.valueError (invalidMsg (_norm_unit u) "Mass "))
        else to_base p "weight" u)
    ∧ (∀ u p, _price_from_base p "mass" u =
        if uom_multiplier "weight" u = 0
        then .error (.valueError (invalidMsg (_norm_unit u) "mass"))
        else _price_from_base p "weight" u)
    ∧ (∀ u p, _price_from_base p "Mass " u =
        if uom_multiplier "weight" u = 0
        then .error (.valueError (invalidMsg (_norm_unit u) "Mass "))
        else _price_from_base p "weight" u)
    ∧ (∀ q u, from_base [.num q, .str u, .str "mass"] [] =
        if uom_multiplier "weight" u = 0
        then .error (.valueError (invalidMsg (_norm_unit u) "mass"))
        else from_base [.num q, .str u, .str "weight"] [])
    ∧ (∀ p u, from_base []
          [("price_per_base", .num p), ("dimension", .str "mass"), ("unit", .str u)] =
        if uom_multiplier "weight" u = 0
        then .error (.valueError (invalidMsg (_norm_unit u) "mass"))
        else from_base []
          [("price_per_base", .num p), ("dimension", .str "weight"), ("unit", .str u)]) := by
  have hm := dim_synonym_ops "mass" (by decide)
  have hM := dim_synonym_ops "Mass " (by decide)
  refine ⟨hm.1, hM.1, hm.2.1, hM.2.1, hm.2.2.1, hM.2.2.1,
    fun u v => hm.2.2.2.1 u v, fun u v => hM.2.2.2.1 u v,
    fun u qb => hm.2.2.2.2.1 u qb, fun u qb => hM.2.2.2.2.1 u qb,
    fun u p => hm.2.2.2.2.2.1 u p, fun u p => hM.2.2.2.2.2.1 u p,
    fun u p => hm.2.2.2.2.2.2 u p, fun u p => hM.2.2.2.2.2.2 u p,
    fun q u => ?_, fun p u => ?_⟩
  · have h1 : from_base [.num q, .str u, .str "mass"] []
        = from_base_qty (truncDec q) "mass" u := by simp [from_base]
    have h2 : from_base [.num q, .str u, .str "weight"] []
        = from_base_qty (truncDec q) "weight" u := by simp [from_base]
    rw [h1, h2, hm.2.2.2.2.1 u (truncDec q)]
  · have h1 : from_base []
        [("price_per_base", .num p), ("dimension", .str "mass"), ("unit", .str u)]
        = _price_from_base p "mass" u := by simp [from_base, List.lookup]
    have h2 : from_base []
        [("price_per_base", .num p), ("dimension", .str "weight"), ("unit", .str u)]
        = _price_from_base p "weight" u := by simp [from_base, List.lookup]
    rw [h1, h2, hm.2.2.2.2.2.2 u p]



/-- C4 counterexample: for volume in `m3` (multiplier 10^9) the round trip
of 0.005 m3 returns 0.00, an error of 1/200, far above the claimed bound of
one base unit (10^-9 m3). -/
theorem c4_counterexample :
    to_base_qty ⟨5, 3⟩ "volume" "m3" = .ok 5000000 ∧
    from_base_qty 5000000 "volume" "m3" = .ok ⟨0, 2⟩ ∧
    uom_multiplier "volume" "m3" = 1000000000 ∧
    ¬(|Dec.toRat ⟨0, 2⟩ - Dec.toRat ⟨5, 3⟩|
        ≤ 1 / (uom_multiplier "volume" "m3" : ℚ)) := by
  refine ⟨by decide, by decide, by decide, ?_⟩
  rw [show uom_multiplier "volume" "m3" = 1000000000 from by decide]
  rw [show Dec.toRat ⟨0, 2⟩ - Dec.toRat ⟨5, 3⟩ = -(1 / 200) from by
    norm_num [Dec.toRat]]
  rw [abs_neg, abs_of_pos (by norm_num : (0 : ℚ) < 1 / 200)]
  norm_num

/-- C4 (amended): for every valid pair the round trip
`from_base_qty (to_base_qty v)` differs from `v` by at most
`max (1 / multiplier) (1/100)`: the unit resolution or the 2-fraction-digit
display resolution, whichever is coarser. -/
theorem c4_amended_roundtrip_bound :
    ∀ (d u : String) (v : Dec) (B : Int) (r : Dec),
      to_base_qty v d u = .ok B →
      from_base_qty B d u = .ok r →
      |r.toRat - v.toRat| ≤ max (1 / (uom_multiplier d u : ℚ)) (1 / 100) := by
  intro d u v B r h1 h2
  by_cases hm : uom_multiplier d u = 0
  · rw [to_base_qty_err v d u hm] at h1
    exact Except.noConfusion h1
  rw [to_base_qty_ok v d u hm] at h1
  rw [from_base_qty_ok B d u hm] at h2
  have hB : B = roundHalfMagSpec (v.toRat * (uom_multiplier d u : ℚ)) :=
    (Except.ok.inj h1).symm
  have hrv : r = ⟨roundHalfEvenSpec ((B : ℚ) / (uom_multiplier d u : ℚ) * 100), 2⟩ :=
    (Except.ok.inj h2).symm
  set m : ℚ := (uom_multiplier d u : ℚ) with hmdef
  have hm1 : (1 : ℚ) ≤ m := by
    rw [hmdef]
    exact_mod_cast Nat.one_le_iff_ne_zero.mpr hm
  have hmpos : (0 : ℚ) < m := lt_of_lt_of_le one_pos hm1
  have hmne : m ≠ 0 := ne_of_gt hmpos
  set x := v.toRat with hxdef
  set E : ℤ := roundHalfEvenSpec ((B : ℚ) / m * 100) with hEdef
  have hr : r.toRat = (E : ℚ) / 100 := by
    rw [hrv]
    show ((E : ℚ)) / (10 : ℚ) ^ (2 : ℕ) = (E : ℚ) / 100
    norm_num
  have hb1 : |((B : ℚ)) - x * m| ≤ 1 / 2 := by
    rw [hB]
    exact abs_roundHalfMagSpec_sub (x * m)
  have hb2 : |((E : ℚ)) - (B : ℚ) / m * 100| ≤ 1 / 2 :=
    abs_roundHalfEvenSpec_sub ((B : ℚ) / m * 100)
  have step1 : |r.toRat - (B : ℚ) / m| ≤ 1 / 200 := by
    rw [hr]
    have e1 : (E : ℚ) / 100 - (B : ℚ) / m = ((E : ℚ) - (B : ℚ) / m * 100) / 100 := by
      ring
    rw [e1, abs_div]
    rw [show |(100 : ℚ)| = 100 from by norm_num]
    calc |(E : ℚ) - (B : ℚ) / m * 100| / 100 ≤ (1 / 2) / 100 := by gcongr
      _ = 1 / 200 := by norm_num
  have step2 : |(B : ℚ) / m - x| ≤ 1 / (2 * m) := by
    have e2 : (B : ℚ) / m - x = ((B : ℚ) - x * m) / m := by
      field_simp
      ring
    rw [e2, abs_div, abs_of_pos hmpos]
    calc |(B : ℚ) - x * m| / m ≤ (1 / 2) / m := by gcongr
      _ = 1 / (2 * m) := by ring
  have tri : |r.toRat - x| ≤ |r.toRat - (B : ℚ) / m| + |(B : ℚ) / m - x| :=
    abs_sub_le _ _ _
  have endgame : 1 / 200 + 1 / (2 * m) ≤ max (1 / m) (1 / 100) := by
    rcases le_total m 100 with hc | hc
    · refine le_trans ?_ (le_max_left (1 / m) (1 / 100))
      have h200 : (1 : ℚ) / 200 ≤ 1 / (2 * m) := by
        apply one_div_le_one_div_of_le
        · linarith
        · linarith
      have hsum : 1 / (2 * m) + 1 / (2 * m) = 1 / m := by
        rw [div_add_div_same, show (1 : ℚ) + 1 = 2 from by norm_num]
        rw [div_eq_div_iff (by positivity) hmne]
        ring
      linarith
    · refine le_trans ?_ (le_max_right (1 / m) (1 / 100))
      have h2m : (1 : ℚ) / (2 * m) ≤ 1 / 200 := by
        apply one_div_le_one_div_of_le
        · norm_num
        · linarith
      linarith
  linarith

theorem c4_witness :
    to_base_qty ⟨123, 1⟩ "length" "cm" = .ok 123 ∧
    from_base_qty 123 "length" "cm" = .ok ⟨1230, 2⟩ ∧
    |Dec.toRat ⟨1230, 2⟩ - Dec.toRat ⟨123, 1⟩|
      ≤ max (1 / (uom_multiplier "length" "cm" : ℚ)) (1 / 100) :=
  ⟨by decide, by decide,
   c4_amended_roundtrip_bound "length" "cm" ⟨123, 1⟩ 123 ⟨1230, 2⟩ (by decide) (by decide)⟩


end Metric
